import Mathlib

/-!
Verification of the sweem-tui Timeline Engine against its specification.

Dates are modelled as integers (days since a fixed epoch), matching the
day-granularity date axis of the spec.  The `timeline` module
(`TimelineState`, the Lane Allocator, the Coordinate Mapper and the
timeline renderer) is referenced from `app.rs` and `ui.rs` but its source
file is not part of the available sources; those definitions are modelled
from the specification, as marked in their doc comments.  Everything else
(`models.rs`, `app.rs` key handling, logging) is translated directly from
the Rust source.
-/

namespace Sweem

/-- Modelled from the spec: the Interval record of §3 (the `timeline`
module source is absent).  `start` and `endDate` are the inclusive date
range used for layout (`endDate` is the spec's `end`, a Lean keyword). -/
structure Interval where
  id : Nat
  start : Int
  endDate : Int
  deriving Repr, DecidableEq

/-- Modelled from the spec: defensive clamping of §7 — an interval with
`end < start` is treated as a zero-width interval at `start`, so the
effective end used for lane bookkeeping is `max start end`. -/
def Interval.effEnd (iv : Interval) : Int :=
  max iv.start iv.endDate

/-- Modelled from the spec: select the open lane with the smallest index
whose current end date is strictly before the new interval's start
(§4.1); `none` when no open lane qualifies. -/
def findFreeLane (laneEnds : List Int) (s : Int) : Option Nat :=
  match laneEnds with
  | [] => none
  | e :: rest => if e < s then some 0 else (findFreeLane rest s).map (· + 1)

/-- Modelled from the spec: place one interval (§4.1).  State is the list
of per-lane end dates together with the assignment produced so far; the
chosen lane's end date is updated to the new interval's effective end, or
a new lane is opened. -/
def placeInterval (acc : List Int × List (Interval × Nat)) (iv : Interval) :
    List Int × List (Interval × Nat) :=
  match findFreeLane acc.1 iv.start with
  | some i => (acc.1.set i iv.effEnd, acc.2 ++ [(iv, i)])
  | none => (acc.1 ++ [iv.effEnd], acc.2 ++ [(iv, acc.1.length)])

/-- Modelled from the spec: the Lane Allocator (§4.1).  Intervals are
processed sorted by `start` ascending, ties broken by original list order
(insertion sort is stable), greedily reusing the smallest free lane. -/
def assignLanes (ivs : List Interval) : List (Interval × Nat) :=
  ((ivs.insertionSort (fun a b => a.start ≤ b.start)).foldl placeInterval ([], [])).2

/-- Two inclusive date ranges overlap: they share at least one day.
Touching endpoints count as overlapping (`end` is inclusive, §4.1). -/
def overlaps (a b : Interval) : Bool :=
  decide (a.start ≤ b.endDate) && decide (b.start ≤ a.endDate)

/-- Struct `ProjectDto` from `models.rs`, restricted to the date fields the
claims are about; dates are days since the epoch. -/
structure ProjectDto where
  start_date : Int
  planned_end_date : Int
  actual_end_date : Option Int
  deriving Repr, DecidableEq

/-- Method `ProjectDto::is_completed` from `models.rs`. -/
def ProjectDto.is_completed (p : ProjectDto) : Bool :=
  p.actual_end_date.isSome

/-- Method `ProjectDto::is_overdue` from `models.rs`; the source reads the system
clock (`chrono::Local::now().date_naive()`), modelled as the explicit
`today` argument. -/
def ProjectDto.is_overdue (p : ProjectDto) (today : Int) : Bool :=
  if p.is_completed then false
  else decide (p.planned_end_date < today)

/-- Derived status of §3: computed, not stored. -/
inductive Status where
  | Completed
  | Overdue
  | Active
  deriving Repr, DecidableEq

/-- Derived status (§3): `Completed` when `actual_end` is present,
`Overdue` when it is absent and today is strictly after the planned end,
`Active` otherwise — expressed through the source predicates. -/
def derivedStatus (p : ProjectDto) (today : Int) : Status :=
  if p.is_completed then .Completed
  else if p.is_overdue today then .Overdue
  else .Active

example :
    assignLanes [⟨0, 1, 10⟩, ⟨1, 5, 15⟩, ⟨2, 11, 20⟩] =
      [(⟨0, 1, 10⟩, 0), (⟨1, 5, 15⟩, 1), (⟨2, 11, 20⟩, 0)] := by
  decide

example : assignLanes [] = [] := by decide

example : assignLanes [⟨7, 3, 3⟩] = [(⟨7, 3, 3⟩, 0)] := by decide

/-- Modelled from the spec: zoom lower bound (§3, "Bounded to
`[ZOOM_MIN, ZOOM_MAX]` (e.g. 1..=30)"). -/
def ZOOM_MIN : Int := 1

/-- Modelled from the spec: zoom upper bound. -/
def ZOOM_MAX : Int := 30

/-- i64 lower bound: the representable range at which date-offset
arithmetic saturates (§4.2, §7). -/
def I64_MIN : Int := -(2 ^ 63)

/-- i64 upper bound. -/
def I64_MAX : Int := 2 ^ 63 - 1

/-- Saturate an integer at the representable i64 range (§7: "Arithmetic
that could overflow ... must saturate at representable bounds"). -/
def satClamp (x : Int) : Int :=
  max I64_MIN (min I64_MAX x)

/-- Clamp a zoom value to `[ZOOM_MIN, ZOOM_MAX]` (§3). -/
def clampZoom (z : Int) : Int :=
  max ZOOM_MIN (min ZOOM_MAX z)

/-- Modelled from the spec: the Viewport of §3 (the `timeline` module
source holding `TimelineState` is absent).  `zoom` is days per column,
`scroll_offset` is days from the epoch to the leftmost visible column,
`selected` the selection cursor over the interval list. -/
structure TimelineState where
  zoom : Int
  scroll_offset : Int
  selected : Nat
  deriving Repr, DecidableEq

/-- Modelled from the spec: `date_to_column` (§4.3) — floor division of
the day distance from the column-0 date by the zoom. -/
def date_to_column (st : TimelineState) (d : Int) : Int :=
  (d - st.scroll_offset).fdiv st.zoom

/-- Modelled from the spec: `column_to_date` (§4.3) — the first day of
the given column. -/
def column_to_date (st : TimelineState) (c : Int) : Int :=
  st.scroll_offset + c * st.zoom

/-- Modelled from the spec: `scroll` left (§4.2) — shift `scroll_offset`
by `amount * zoom` days, saturating at the representable range, with no
clamping against data bounds. -/
def TimelineState.scroll_left (st : TimelineState) (amount : Int) : TimelineState :=
  { st with scroll_offset := satClamp (st.scroll_offset - amount * st.zoom) }

/-- Modelled from the spec: `scroll` right (§4.2). -/
def TimelineState.scroll_right (st : TimelineState) (amount : Int) : TimelineState :=
  { st with scroll_offset := satClamp (st.scroll_offset + amount * st.zoom) }

/-- Modelled from the spec: `zoom_in` (§4.2) — decrement `zoom` by 1
clamped to `[ZOOM_MIN, ZOOM_MAX]`, recomputing `scroll_offset` so the
date at the viewport's horizontal center column (`w / 2`) is invariant.
The source call site passes no width, so the width is an explicit
argument here. -/
def TimelineState.zoom_in (st : TimelineState) (w : Nat) : TimelineState :=
  let z := clampZoom (st.zoom - 1)
  let c : Int := (w : Int) / 2
  { st with zoom := z, scroll_offset := column_to_date st c - c * z }

/-- Modelled from the spec: `zoom_out` (§4.2) — increment `zoom` by 1
clamped, keeping the center date fixed. -/
def TimelineState.zoom_out (st : TimelineState) (w : Nat) : TimelineState :=
  let z := clampZoom (st.zoom + 1)
  let c : Int := (w : Int) / 2
  { st with zoom := z, scroll_offset := column_to_date st c - c * z }

/-- Modelled from the spec: `select_next(total)` (§4.2) — advance with
wraparound modulo `total`; no-op when `total == 0`. -/
def TimelineState.select_next (st : TimelineState) (total : Nat) : TimelineState :=
  if total = 0 then st else { st with selected := (st.selected + 1) % total }

/-- Modelled from the spec: `select_previous(total)` (§4.2) — retreat
with wraparound modulo `total`; no-op when `total == 0`. -/
def TimelineState.select_previous (st : TimelineState) (total : Nat) : TimelineState :=
  if total = 0 then st
  else { st with selected := if st.selected = 0 then total - 1 else st.selected - 1 }

/-- Modelled from the spec: `center_on_today(viewport_width_columns)`
(§4.2) — set `scroll_offset` so today maps to the horizontal-center
column. -/
def TimelineState.center_on_today (st : TimelineState) (w : Nat) (today : Int) : TimelineState :=
  { st with scroll_offset := today - ((w : Int) / 2) * st.zoom }

/-- Key codes used by the key handlers of `app.rs` (a faithful subset of
`crossterm::event::KeyCode`). -/
inductive KeyCode where
  | CharKey : Char → KeyCode
  | Left
  | Right
  | Up
  | Down
  | Esc
  | Enter
  | Home
  | TabKey
  | BackTab
  deriving Repr, DecidableEq

/-- A key event: the code plus the SHIFT and CONTROL modifiers read by
`app.rs`. -/
structure KeyEvent where
  code : KeyCode
  shift : Bool
  ctrl : Bool
  deriving Repr, DecidableEq

/-- Method `App::handle_timeline_key` from `app.rs`: timeline-tab key dispatch.
`projectsLen` is `self.projects.len()`; `today` stands for the system
clock read inside `center_on_today`. -/
def handleTimelineKey (key : KeyEvent) (projectsLen : Nat) (today : Int)
    (st : TimelineState) : TimelineState :=
  match key.code with
  | .CharKey 'h' | .Left => st.scroll_left (if key.shift then 7 else 1)
  | .CharKey 'l' | .Right => st.scroll_right (if key.shift then 7 else 1)
  | .CharKey 'j' | .Down => st.select_next projectsLen
  | .CharKey 'k' | .Up => st.select_previous projectsLen
  | .CharKey '+' | .CharKey '=' => st.zoom_in 80
  | .CharKey '-' => st.zoom_out 80
  | .CharKey 't' => st.center_on_today 80 today
  | .Home => { st with scroll_offset := 0 }
  | _ => st

/-- Method `App::handle_list_key` from `app.rs`: list-view selection movement
over `total` items, returning the new `list_selected`. -/
def handleListKey (key : KeyEvent) (total : Nat) (sel : Nat) : Nat :=
  if total = 0 then sel
  else
    match key.code with
    | .CharKey 'j' | .Down => (sel + 1) % total
    | .CharKey 'k' | .Up => if sel = 0 then total - 1 else sel - 1
    | .CharKey 'g' => 0
    | .CharKey 'G' => total - 1
    | _ => sel

/-- The `Tab` enum from `app.rs`. -/
inductive Tab where
  | Clients
  | Timeline
  | Users
  deriving Repr, DecidableEq

/-- Method `Tab::next` from `app.rs`. -/
def Tab.next : Tab → Tab
  | .Clients => .Timeline
  | .Timeline => .Users
  | .Users => .Clients

/-- Method `Tab::previous` from `app.rs`. -/
def Tab.previous : Tab → Tab
  | .Clients => .Users
  | .Timeline => .Clients
  | .Users => .Timeline

/-- The `ApiCommand` enum from `api.rs`. -/
inductive ApiCommand where
  | RefreshAll
  | RefreshProjects
  | RefreshClients
  | RefreshUsers
  | CheckConnection
  | Shutdown
  deriving Repr, DecidableEq

/-- The `ParticleMode` enum from `particles.rs`. -/
inductive ParticleMode where
  | DigitalRain
  | Starfield
  | NoneMode
  deriving Repr, DecidableEq

/-- Method `ParticleMode::next` from `particles.rs` (cycled by `toggle_mode`). -/
def ParticleMode.nextMode : ParticleMode → ParticleMode
  | .DigitalRain => .Starfield
  | .Starfield => .NoneMode
  | .NoneMode => .DigitalRain

/-- The `App` state from `app.rs`, restricted to the fields the key
handlers read or write.  The data vectors are represented by their
lengths (only `len()` is consulted by key handling); log entries by
their message text. -/
structure App where
  should_quit : Bool
  active_tab : Tab
  projectsLen : Nat
  clientsLen : Nat
  usersLen : Nat
  timeline_state : TimelineState
  particle_mode : ParticleMode
  error_popup : Option (String × String)
  logs : List String
  max_logs : Nat
  list_selected : Nat
  is_loading : Bool
  show_help : Bool
  deriving Repr, DecidableEq

/-- Method `App::log` from `app.rs`: push the entry, then drop the oldest entry
(index 0) when the buffer exceeds `max_logs`. -/
def App.log (app : App) (entry : String) : App :=
  if app.max_logs < (app.logs ++ [entry]).length then
    { app with logs := (app.logs ++ [entry]).eraseIdx 0 }
  else { app with logs := app.logs ++ [entry] }

/-- Method `App::new` from `app.rs`: initial state (`max_logs = 100`, two
startup log entries).  The initial `TimelineState` is modelled from the
spec's lifecycle defaults (§3), with `today` standing for the clock. -/
def App.new (today : Int) : App :=
  let app : App :=
    { should_quit := false
      active_tab := .Timeline
      projectsLen := 0
      clientsLen := 0
      usersLen := 0
      timeline_state := { zoom := 1, scroll_offset := today - 40, selected := 0 }
      particle_mode := .DigitalRain
      error_popup := none
      logs := []
      max_logs := 100
      list_selected := 0
      is_loading := true
      show_help := false }
  (app.log "SWEeM TUI initialized").log "Connecting to API..."

/-- The popup-dismissal key test of `App::handle_key`:
`matches!(key.code, KeyCode::Esc | KeyCode::Enter | KeyCode::Char(' '))`. -/
def isDismissKey (code : KeyCode) : Bool :=
  code = .Esc || code = .Enter || code = .CharKey ' '

/-- The help-overlay close test of `App::handle_key`:
`matches!(key.code, KeyCode::Esc | KeyCode::Char('?') | KeyCode::Enter)`. -/
def isHelpCloseKey (code : KeyCode) : Bool :=
  code = .Esc || code = .CharKey '?' || code = .Enter

/-- The global-shortcut arm of `App::handle_key` (`app.rs`): `some`
when a global shortcut consumed the key, `none` when control falls
through to the tab-specific handlers. -/
def handleGlobalKey (app : App) (key : KeyEvent) : Option (App × Option ApiCommand) :=
  match key.code with
  | .CharKey 'q' => some ({ app with should_quit := true }, some .Shutdown)
  | .CharKey 'Q' => some ({ app with should_quit := true }, some .Shutdown)
  | .CharKey 'c' =>
    if key.ctrl then some ({ app with should_quit := true }, some .Shutdown) else none
  | .CharKey '?' => some ({ app with show_help := true }, none)
  | .CharKey 'p' =>
    let app := { app with particle_mode := app.particle_mode.nextMode }
    some (app.log "Particle mode changed", none)
  | .CharKey 'r' =>
    some (({ app with is_loading := true }).log "Refreshing data...", some .RefreshAll)
  | .TabKey => some ({ app with active_tab := app.active_tab.next, list_selected := 0 }, none)
  | .BackTab =>
    some ({ app with active_tab := app.active_tab.previous, list_selected := 0 }, none)
  | _ => none

/-- Method `App::handle_key` from `app.rs`: popup dismissal, help overlay,
global shortcuts, then tab-specific dispatch; returns the new state and
the optional `ApiCommand`. -/
def handleKey (app : App) (key : KeyEvent) (today : Int) : App × Option ApiCommand :=
  if app.error_popup.isSome then
    (if isDismissKey key.code then { app with error_popup := none } else app, none)
  else if app.show_help then
    (if isHelpCloseKey key.code then { app with show_help := false } else app, none)
  else
    match handleGlobalKey app key with
    | some r => r
    | none =>
      match app.active_tab with
      | .Timeline =>
        ({ app with
            timeline_state :=
              handleTimelineKey key app.projectsLen today app.timeline_state }, none)
      | .Clients =>
        ({ app with list_selected := handleListKey key app.clientsLen app.list_selected }, none)
      | .Users =>
        ({ app with list_selected := handleListKey key app.usersLen app.list_selected }, none)

/-- Kind of a drawn grid cell: axis tick, interval bar, selection
highlight, or today marker. -/
inductive CellKind where
  | AxisCell
  | BarCell
  | SelectedCell
  | TodayCell
  deriving Repr, DecidableEq

/-- One drawn character cell of the target grid. -/
structure Cell where
  x : Nat
  y : Nat
  kind : CellKind
  deriving Repr, DecidableEq

/-- Modelled from the spec: tick granularity (§4.3) — the smallest of
day/week/month/quarter whose column spacing at the current zoom is at
least a minimum legible width (4 columns). -/
def tickGranularity (zoom : Int) : Int :=
  if 4 * zoom ≤ 1 then 1
  else if 4 * zoom ≤ 7 then 7
  else if 4 * zoom ≤ 30 then 30
  else 90

/-- Modelled from the spec: axis tick cells (§4.3, §4.4) — the header
row (row 0) with tick marks at columns whose date is aligned to the
chosen granularity. -/
def axisCells (st : TimelineState) (w h : Nat) : List Cell :=
  if h = 0 then []
  else
    ((List.range w).filter
        (fun c : Nat => column_to_date st (Int.ofNat c) % tickGranularity st.zoom = 0)).map
      (fun c => ⟨c, 0, .AxisCell⟩)

/-- Modelled from the spec: the bar cells of one interval (§4.4) — the
interval's column range clipped to `[0, w)`, drawn on row `lane + 1`
(below the axis header); rows beyond the rectangle are silently
truncated; the selected interval is highlighted. -/
def barCellsFor (st : TimelineState) (w h : Nat) (sel : Nat) (idx : Nat) (iv : Interval)
    (lane : Nat) : List Cell :=
  if lane + 1 < h then
    ((List.range w).filter
        (fun c : Nat =>
          decide (max 0 (date_to_column st iv.start) ≤ Int.ofNat c) &&
            decide (Int.ofNat c ≤ min ((w : Int) - 1) (date_to_column st iv.endDate)))).map
      (fun c => ⟨c, lane + 1, if idx = sel then .SelectedCell else .BarCell⟩)
  else []

/-- Modelled from the spec: the today marker (§4.4) — a single-column
vertical marker at today's column when it is within the visible range,
spanning the lane rows below the axis header. -/
def todayCells (st : TimelineState) (w h : Nat) (today : Int) : List Cell :=
  if 0 ≤ date_to_column st today ∧ date_to_column st today < (w : Int) then
    ((List.range h).filter (fun y => 1 ≤ y)).map
      (fun y => ⟨(date_to_column st today).toNat, y, .TodayCell⟩)
  else []

/-- Look up the lane assigned to an interval (by id) in a lane
assignment, the spec's "mapping from interval id to lane" (§3). -/
def laneOf (assigns : List (Interval × Nat)) (iv : Interval) : Nat :=
  match assigns.find? (fun p => p.1.id = iv.id) with
  | some p => p.2
  | none => 0

/-- Modelled from the spec: the Timeline Renderer (§4.4) — axis header,
clipped bars placed on their lane rows, and the today marker drawn after
the bars.  A total function: degenerate geometry yields an empty cell
list. -/
def renderTimeline (ivs : List Interval) (st : TimelineState) (w h : Nat) (today : Int) :
    List Cell :=
  axisCells st w h ++
    (ivs.enum.map
        (fun p => barCellsFor st w h st.selected p.1 p.2 (laneOf (assignLanes ivs) p.2))).flatten
    ++ todayCells st w h today

/-! Helper lemmas -/

theorem clampZoom_ge (z : Int) : ZOOM_MIN ≤ clampZoom z :=
  le_max_left _ _

theorem clampZoom_le (z : Int) : clampZoom z ≤ ZOOM_MAX :=
  max_le (by norm_num [ZOOM_MIN, ZOOM_MAX]) (min_le_left _ _)

theorem clampZoom_ne_zero (z : Int) : clampZoom z ≠ 0 := by
  have h := clampZoom_ge z
  simp only [ZOOM_MIN] at h
  omega

theorem satClamp_ge (x : Int) : I64_MIN ≤ satClamp x :=
  le_max_left _ _

theorem satClamp_le (x : Int) : satClamp x ≤ I64_MAX :=
  max_le (by norm_num [I64_MIN, I64_MAX]) (min_le_left _ _)

theorem satClamp_of_bounded (x : Int) (h1 : I64_MIN ≤ x) (h2 : x ≤ I64_MAX) :
    satClamp x = x := by
  unfold satClamp
  rw [min_eq_right h2, max_eq_right h1]

/-- The Lane Allocator's running invariant: every assigned lane index is
an open lane, the recorded end date of a lane bounds the effective end of
every interval placed there, and no two intervals sharing a lane
overlap. -/
def laneOk (laneEnds : List Int) (assigned : List (Interval × Nat)) : Prop :=
  (∀ p ∈ assigned, ∃ e, laneEnds[p.2]? = some e ∧ p.1.effEnd ≤ e) ∧
  assigned.Pairwise (fun p q => p.2 = q.2 → overlaps p.1 q.1 = false)

theorem findFreeLane_some (laneEnds : List Int) (s : Int) (i : Nat)
    (h : findFreeLane laneEnds s = some i) :
    ∃ e, laneEnds[i]? = some e ∧ e < s := by
  induction laneEnds generalizing i with
  | nil => simp [findFreeLane] at h
  | cons e rest ih =>
    unfold findFreeLane at h
    split at h
    · simp only [Option.some.injEq] at h
      subst h
      exact ⟨e, by simp, by assumption⟩
    · rcases Option.map_eq_some'.mp h with ⟨j, hj, hji⟩
      subst hji
      rcases ih j hj with ⟨e', he', hlt⟩
      exact ⟨e', by simpa using he', hlt⟩

theorem endDate_le_effEnd (iv : Interval) : iv.endDate ≤ iv.effEnd :=
  le_max_right _ _

theorem effEnd_ge_start (iv : Interval) : iv.start ≤ iv.effEnd :=
  le_max_left _ _

theorem placeInterval_ok (laneEnds : List Int) (assigned : List (Interval × Nat))
    (iv : Interval) (h : laneOk laneEnds assigned) :
    laneOk (placeInterval (laneEnds, assigned) iv).1 (placeInterval (laneEnds, assigned) iv).2 := by
  obtain ⟨hidx, hpw⟩ := h
  unfold placeInterval
  rcases hfind : findFreeLane laneEnds iv.start with _ | i
  · -- no free lane: open a new one at index laneEnds.length
    simp only
    constructor
    · intro p hp
      rcases List.mem_append.mp hp with hold | hnew
      · rcases hidx p hold with ⟨e, he, hbound⟩
        have hlt : p.2 < laneEnds.length := (List.getElem?_eq_some.mp he).1
        refine ⟨e, ?_, hbound⟩
        rw [List.getElem?_append, if_pos hlt]
        exact he
      · simp only [List.mem_singleton] at hnew
        subst hnew
        exact ⟨iv.effEnd, by simp, le_refl _⟩
    · rw [List.pairwise_append]
      refine ⟨hpw, List.pairwise_singleton _ _, ?_⟩
      intro p hp q hq hlane
      simp only [List.mem_singleton] at hq
      subst hq
      rcases hidx p hp with ⟨e, he, _⟩
      have hlt : p.2 < laneEnds.length := (List.getElem?_eq_some.mp he).1
      simp only at hlane
      omega
  · -- reuse free lane i, whose end date e is strictly before iv.start
    rcases findFreeLane_some laneEnds iv.start i hfind with ⟨e, he, helt⟩
    have hilt : i < laneEnds.length := (List.getElem?_eq_some.mp he).1
    simp only
    constructor
    · intro p hp
      rcases List.mem_append.mp hp with hold | hnew
      · rcases hidx p hold with ⟨ep, hep, hbound⟩
        by_cases hpi : p.2 = i
        · subst hpi
          refine ⟨iv.effEnd, by simp [List.getElem?_set_self, hilt], ?_⟩
          have : ep = e := by rw [hep] at he; exact Option.some.inj he
          subst this
          have := effEnd_ge_start iv
          omega
        · refine ⟨ep, ?_, hbound⟩
          rw [List.getElem?_set_ne (fun hh => hpi hh.symm)]
          exact hep
      · simp only [List.mem_singleton] at hnew
        subst hnew
        exact ⟨iv.effEnd, by simp [List.getElem?_set_self, hilt], le_refl _⟩
    · rw [List.pairwise_append]
      refine ⟨hpw, List.pairwise_singleton _ _, ?_⟩
      intro p hp q hq hlane
      simp only [List.mem_singleton] at hq
      subst hq
      simp only at hlane
      rcases hidx p hp with ⟨ep, hep, hbound⟩
      have : ep = e := by
        rw [hlane] at hep
        rw [hep] at he
        exact Option.some.inj he
      subst this
      have hend := endDate_le_effEnd p.1
      have : ¬iv.start ≤ p.1.endDate := by omega
      simp [overlaps, this]

theorem foldl_place_ok (ivs : List Interval) (laneEnds : List Int)
    (assigned : List (Interval × Nat)) (h : laneOk laneEnds assigned) :
    laneOk (ivs.foldl placeInterval (laneEnds, assigned)).1
      (ivs.foldl placeInterval (laneEnds, assigned)).2 := by
  induction ivs generalizing laneEnds assigned with
  | nil => exact h
  | cons iv rest ih =>
    simp only [List.foldl_cons]
    have hstep := placeInterval_ok laneEnds assigned iv h
    rcases hp : placeInterval (laneEnds, assigned) iv with ⟨l', a'⟩
    rw [hp] at hstep
    exact ih l' a' hstep

/-! Claim theorems -/

/-- Claim C1: the Lane Allocator assigns no two intervals with
overlapping inclusive date ranges (touching endpoints included) to the
same lane: the produced assignment is pairwise conflict-free within each
lane. -/
theorem lane_non_overlap (ivs : List Interval) :
    (assignLanes ivs).Pairwise (fun p q => p.2 = q.2 → overlaps p.1 q.1 = false) := by
  unfold assignLanes
  exact (foldl_place_ok _ [] [] ⟨by simp, List.Pairwise.nil⟩).2

/-- Claim C2: after zoom_in or zoom_out the zoom stays within
[ZOOM_MIN, ZOOM_MAX], and the date previously at the viewport's
horizontal center column (w / 2) maps to exactly the same center column
afterwards. -/
theorem zoom_center_invariance (st : TimelineState) (w : Nat) :
    (ZOOM_MIN ≤ (st.zoom_in w).zoom ∧ (st.zoom_in w).zoom ≤ ZOOM_MAX) ∧
    (ZOOM_MIN ≤ (st.zoom_out w).zoom ∧ (st.zoom_out w).zoom ≤ ZOOM_MAX) ∧
    date_to_column (st.zoom_in w) (column_to_date st ((w : Int) / 2)) = (w : Int) / 2 ∧
    date_to_column (st.zoom_out w) (column_to_date st ((w : Int) / 2)) = (w : Int) / 2 := by
  refine ⟨⟨clampZoom_ge _, clampZoom_le _⟩, ⟨clampZoom_ge _, clampZoom_le _⟩, ?_, ?_⟩
  · unfold TimelineState.zoom_in date_to_column
    simp only [sub_sub_cancel]
    exact Int.mul_fdiv_cancel _ (clampZoom_ne_zero _)
  · unfold TimelineState.zoom_out date_to_column
    simp only [sub_sub_cancel]
    exact Int.mul_fdiv_cancel _ (clampZoom_ne_zero _)

/-- Claim C3: for every viewport with a positive zoom and every column c,
date_to_column (column_to_date c) = c — the round trip on the column
axis is exact. -/
theorem column_round_trip (st : TimelineState) (c : Int) (h : 1 ≤ st.zoom) :
    date_to_column st (column_to_date st c) = c := by
  unfold date_to_column column_to_date
  rw [add_sub_cancel_left]
  exact Int.mul_fdiv_cancel c (by omega)

/-- Witness for C3 at zoom 7, scroll offset 100, column 5. -/
theorem column_round_trip_witness :
    1 ≤ (⟨7, 100, 0⟩ : TimelineState).zoom ∧
      date_to_column ⟨7, 100, 0⟩ (column_to_date ⟨7, 100, 0⟩ 5) = 5 :=
  ⟨by decide, column_round_trip ⟨7, 100, 0⟩ 5 (by decide)⟩

/-- Claim C4: the derived status is Completed exactly when
actual_end_date is present, Overdue exactly when it is absent and today
is strictly after planned_end_date, Active otherwise; and is_overdue is
false for every completed project. -/
theorem derived_status_correct (p : ProjectDto) (today : Int) :
    (derivedStatus p today = .Completed ↔ p.actual_end_date.isSome = true) ∧
    (derivedStatus p today = .Overdue ↔
      p.actual_end_date.isSome = false ∧ p.planned_end_date < today) ∧
    (derivedStatus p today = .Active ↔
      p.actual_end_date.isSome = false ∧ ¬p.planned_end_date < today) ∧
    (p.actual_end_date.isSome = true → p.is_overdue today = false) := by
  unfold derivedStatus ProjectDto.is_overdue ProjectDto.is_completed
  rcases h : p.actual_end_date.isSome
  · simp only [h, Bool.false_eq_true, if_false]
    split <;> simp_all
  · simp [h]

/-- Witness for C4: a project completed after its planned end is not
overdue. -/
theorem derived_status_witness :
    ProjectDto.is_overdue ⟨0, 5, some 9⟩ 10 = false :=
  (derived_status_correct ⟨0, 5, some 9⟩ 10).2.2.2 (by decide)

/-- Claim C5: selection advance/retreat wraps around modulo total (last
index advances to 0, index 0 retreats to total - 1) and is a no-op when
total = 0 — both for the list views (handleListKey in app.rs) and for
the spec-modelled timeline selection. -/
theorem selection_wraparound (total sel : Nat) (st : TimelineState) (key : KeyEvent)
    (h : 0 < total) :
    handleListKey ⟨.Down, false, false⟩ total (total - 1) = 0 ∧
    handleListKey ⟨.Up, false, false⟩ total 0 = total - 1 ∧
    handleListKey key 0 sel = sel ∧
    ({ st with selected := total - 1 } : TimelineState).select_next total =
      { st with selected := 0 } ∧
    ({ st with selected := 0 } : TimelineState).select_previous total =
      { st with selected := total - 1 } ∧
    st.select_next 0 = st ∧
    st.select_previous 0 = st := by
  have hne : total ≠ 0 := by omega
  have hcancel : total - 1 + 1 = total := by omega
  refine ⟨?_, ?_, ?_, ?_, ?_, ?_, ?_⟩
  · simp [handleListKey, hne, hcancel, Nat.mod_self]
  · simp [handleListKey, hne]
  · simp [handleListKey]
  · simp [TimelineState.select_next, hne, hcancel, Nat.mod_self]
  · simp [TimelineState.select_previous, hne]
  · simp [TimelineState.select_next]
  · simp [TimelineState.select_previous]

/-- Witness for C5 with three items. -/
theorem selection_wraparound_witness :
    handleListKey ⟨.Down, false, false⟩ 3 2 = 0 ∧
      handleListKey ⟨.Up, false, false⟩ 3 0 = 2 :=
  ⟨(selection_wraparound 3 0 ⟨1, 0, 0⟩ ⟨.Esc, false, false⟩ (by decide)).1,
    (selection_wraparound 3 0 ⟨1, 0, 0⟩ ⟨.Esc, false, false⟩ (by decide)).2.1⟩

/-- Claim C6: scrolling shifts scroll_offset by exactly amount * zoom
days in the given direction when the result is representable, always
saturates within the i64 range, never touches zoom, and the Shift
variants of the left/right keys scroll by 7 columns versus 1 for the
plain variants. -/
theorem scroll_exact_and_saturating (st : TimelineState) (n : Int) (len : Nat) (today : Int) :
    (I64_MIN ≤ st.scroll_offset + n * st.zoom → st.scroll_offset + n * st.zoom ≤ I64_MAX →
      (st.scroll_right n).scroll_offset = st.scroll_offset + n * st.zoom) ∧
    (I64_MIN ≤ st.scroll_offset - n * st.zoom → st.scroll_offset - n * st.zoom ≤ I64_MAX →
      (st.scroll_left n).scroll_offset = st.scroll_offset - n * st.zoom) ∧
    (I64_MIN ≤ (st.scroll_right n).scroll_offset ∧ (st.scroll_right n).scroll_offset ≤ I64_MAX) ∧
    (I64_MIN ≤ (st.scroll_left n).scroll_offset ∧ (st.scroll_left n).scroll_offset ≤ I64_MAX) ∧
    (st.scroll_right n).zoom = st.zoom ∧ (st.scroll_left n).zoom = st.zoom ∧
    handleTimelineKey ⟨.Right, true, false⟩ len today st = st.scroll_right 7 ∧
    handleTimelineKey ⟨.Right, false, false⟩ len today st = st.scroll_right 1 ∧
    handleTimelineKey ⟨.Left, true, false⟩ len today st = st.scroll_left 7 ∧
    handleTimelineKey ⟨.Left, false, false⟩ len today st = st.scroll_left 1 := by
  exact ⟨fun h1 h2 => satClamp_of_bounded _ h1 h2, fun h1 h2 => satClamp_of_bounded _ h1 h2,
    ⟨satClamp_ge _, satClamp_le _⟩, ⟨satClamp_ge _, satClamp_le _⟩, rfl, rfl, rfl, rfl, rfl, rfl⟩

/-- Witness for C6: one plain right-scroll step at zoom 1 from offset 0
lands on offset 1. -/
theorem scroll_exact_witness :
    (TimelineState.scroll_right ⟨1, 0, 0⟩ 1).scroll_offset = 0 + 1 * 1 :=
  (scroll_exact_and_saturating ⟨1, 0, 0⟩ 1 0 0).1 (by decide) (by decide)

/-- Claim C7: the Home key on the Timeline tab sets scroll_offset to
exactly 0 and leaves zoom and the selection unchanged. -/
theorem home_resets_scroll_only (st : TimelineState) (len : Nat) (today : Int) (sh ct : Bool) :
    handleTimelineKey ⟨.Home, sh, ct⟩ len today st = { st with scroll_offset := 0 } ∧
    (handleTimelineKey ⟨.Home, sh, ct⟩ len today st).scroll_offset = 0 ∧
    (handleTimelineKey ⟨.Home, sh, ct⟩ len today st).zoom = st.zoom ∧
    (handleTimelineKey ⟨.Home, sh, ct⟩ len today st).selected = st.selected :=
  ⟨rfl, rfl, rfl, rfl⟩

/-- Claim C8: rendering into a zero-width or zero-height rectangle
produces no cells (and, being a total Lean function, cannot panic), and
rendering an empty interval list produces only axis and today-marker
cells. -/
theorem render_degenerate (ivs : List Interval) (st : TimelineState) (w h : Nat) (today : Int) :
    ((w = 0 ∨ h = 0) → renderTimeline ivs st w h today = []) ∧
    (ivs = [] → ∀ cell ∈ renderTimeline ivs st w h today,
      cell.kind = CellKind.AxisCell ∨ cell.kind = CellKind.TodayCell) := by
  constructor
  · rintro (rfl | rfl)
    · have hax : axisCells st 0 h = [] := by
        unfold axisCells
        split
        · rfl
        · simp
      have htoday : todayCells st 0 h today = [] := by
        unfold todayCells
        rw [if_neg]
        push_cast
        omega
      have hbar : ∀ x ∈ ivs.enum.map
          (fun p => barCellsFor st 0 h st.selected p.1 p.2 (laneOf (assignLanes ivs) p.2)),
          x = [] := by
        intro x hx
        rcases List.mem_map.mp hx with ⟨p, _, rfl⟩
        unfold barCellsFor
        split
        · simp
        · rfl
      unfold renderTimeline
      rw [hax, htoday, List.flatten_eq_nil_iff.mpr hbar]
      rfl
    · have hax : axisCells st w 0 = [] := by
        unfold axisCells
        rw [if_pos rfl]
      have htoday : todayCells st w 0 today = [] := by
        unfold todayCells
        split
        · simp
        · rfl
      have hbar : ∀ x ∈ ivs.enum.map
          (fun p => barCellsFor st w 0 st.selected p.1 p.2 (laneOf (assignLanes ivs) p.2)),
          x = [] := by
        intro x hx
        rcases List.mem_map.mp hx with ⟨p, _, rfl⟩
        unfold barCellsFor
        rw [if_neg (by omega)]
      unfold renderTimeline
      rw [hax, htoday, List.flatten_eq_nil_iff.mpr hbar]
      rfl
  · rintro rfl cell hc
    unfold renderTimeline at hc
    rcases List.mem_append.mp hc with hc1 | hc2
    · rcases List.mem_append.mp hc1 with ha | hb
      · unfold axisCells at ha
        split at ha
        · simp at ha
        · rcases List.mem_map.mp ha with ⟨c, _, rfl⟩
          exact Or.inl rfl
      · simp at hb
    · unfold todayCells at hc2
      split at hc2
      · rcases List.mem_map.mp hc2 with ⟨y, _, rfl⟩
        exact Or.inr rfl
      · simp at hc2

/-- Witness for C8: zero width renders nothing; with an empty interval
list a rendered cell is an axis or today cell. -/
theorem render_degenerate_witness :
    renderTimeline [] ⟨1, 0, 0⟩ 0 5 0 = [] ∧
      ((⟨0, 1, CellKind.TodayCell⟩ : Cell).kind = CellKind.AxisCell ∨
        (⟨0, 1, CellKind.TodayCell⟩ : Cell).kind = CellKind.TodayCell) :=
  ⟨(render_degenerate [] ⟨1, 0, 0⟩ 0 5 0).1 (Or.inl rfl),
    (render_degenerate [] ⟨1, 0, 0⟩ 3 3 0).2 rfl ⟨0, 1, CellKind.TodayCell⟩ (by decide)⟩

/-- Claim C9: while an error popup is shown, handle_key returns no API
command and the only possible state change is clearing the popup on
Esc/Enter/Space; in particular the quit key neither sets should_quit nor
issues Shutdown. -/
theorem popup_swallows_keys (app : App) (key : KeyEvent) (today : Int)
    (h : app.error_popup.isSome = true) :
    (handleKey app key today).2 = none ∧
    (handleKey app key today).1 =
      { app with error_popup := if isDismissKey key.code then none else app.error_popup } ∧
    (handleKey app key today).1.should_quit = app.should_quit := by
  unfold handleKey
  simp only [h, if_true]
  by_cases hd : isDismissKey key.code
  · simp [hd]
  · simp [hd]

/-- Witness for C9: pressing the quit key under an error popup does not
quit and produces no command. -/
theorem popup_swallows_keys_witness :
    (handleKey
        ⟨false, .Timeline, 0, 0, 0, ⟨1, 0, 0⟩, .DigitalRain, some ("E", "m"), [], 100, 0,
          false, false⟩
        ⟨.CharKey 'q', false, false⟩ 0).2 = none ∧
      (handleKey
          ⟨false, .Timeline, 0, 0, 0, ⟨1, 0, 0⟩, .DigitalRain, some ("E", "m"), [], 100, 0,
            false, false⟩
          ⟨.CharKey 'q', false, false⟩ 0).1.should_quit = false :=
  ⟨(popup_swallows_keys _ _ 0 (by decide)).1, (popup_swallows_keys _ _ 0 (by decide)).2.2⟩

theorem log_preserves_max (app : App) (e : String) :
    (App.log app e).max_logs = app.max_logs := by
  unfold App.log
  split
  · rfl
  · rfl

theorem log_length_le (app : App) (e : String) (h : app.logs.length ≤ app.max_logs) :
    (App.log app e).logs.length ≤ app.max_logs := by
  unfold App.log
  split
  · next hlt =>
    simp only [List.length_eraseIdx, List.length_append, List.length_singleton]
    simp only [List.length_append, List.length_singleton] at hlt
    rw [if_pos (Nat.succ_pos _)]
    omega
  · next hge =>
    simp only [List.length_append, List.length_singleton]
    simp only [List.length_append, List.length_singleton] at hge
    omega

theorem foldl_log_max (es : List String) (app : App) :
    (es.foldl App.log app).max_logs = app.max_logs := by
  induction es generalizing app with
  | nil => rfl
  | cons e rest ih =>
    simp only [List.foldl_cons]
    rw [ih, log_preserves_max]

theorem foldl_log_len (es : List String) (app : App) (h : app.logs.length ≤ app.max_logs) :
    (es.foldl App.log app).logs.length ≤ app.max_logs := by
  induction es generalizing app with
  | nil => exact h
  | cons e rest ih =>
    simp only [List.foldl_cons]
    have h2 : (App.log app e).logs.length ≤ (App.log app e).max_logs := by
      rw [log_preserves_max]
      exact log_length_le app e h
    have := ih (App.log app e) h2
    rwa [log_preserves_max] at this

/-- Claim C10: App::log keeps the buffer within max_logs, removes the
oldest entry (index 0) exactly when the bound would be exceeded, and any
number of log calls starting from App::new (max_logs = 100) never grows
the buffer past 100 entries. -/
theorem log_bounded (app : App) (e : String) (es : List String) (today : Int) :
    (app.logs.length ≤ app.max_logs → (App.log app e).logs.length ≤ app.max_logs) ∧
    (app.max_logs < app.logs.length + 1 →
      (App.log app e).logs = (app.logs ++ [e]).eraseIdx 0) ∧
    (es.foldl App.log (App.new today)).logs.length ≤ 100 := by
  refine ⟨log_length_le app e, ?_, ?_⟩
  · intro hlt
    unfold App.log
    rw [if_pos (by simpa using hlt)]
  · have h0 : (App.new today).logs.length ≤ (App.new today).max_logs := by
      show 2 ≤ 100
      omega
    have hb := foldl_log_len es (App.new today) h0
    have hm : (App.new today).max_logs = 100 := rfl
    rwa [hm] at hb

/-- Witness for C10: with max_logs = 1 and one stored entry, logging
one more drops the oldest entry and the bound holds. -/
theorem log_bounded_witness :
    (App.log ⟨false, .Timeline, 0, 0, 0, ⟨1, 0, 0⟩, .DigitalRain, none, ["a"], 1, 0,
        false, false⟩ "b").logs.length ≤ 1 ∧
      (App.log ⟨false, .Timeline, 0, 0, 0, ⟨1, 0, 0⟩, .DigitalRain, none, ["a"], 1, 0,
          false, false⟩ "b").logs = (["a"] ++ ["b"]).eraseIdx 0 :=
  ⟨(log_bounded _ "b" [] 0).1 (by decide), (log_bounded _ "b" [] 0).2.1 (by decide)⟩

end Sweem
